import Mathlib

/-!
Shallow embedding of `geolite2/parser.py` from the GeoLite2-Python repository.

The embedding models:
  * the exception hierarchy of `geolite2/exceptions.py` (plus the builtin
    Python exceptions the code can raise) as the inductive `Err`;
  * the filesystem as a finite association list from path strings to flat
    directory contents (`shutil.rmtree`, `shutil.copytree`, `Path.replace`
    become pure operations on that map);
  * external effects — `maxminddb.open_database`, `shutil.which("git")`,
    the two git subprocesses, and the two `urllib.request.urlopen` calls —
    as environment records supplied by the caller;
  * observable actions (closing readers, opening a database file, directory
    mutations) as an event trace, so that ordering claims can be stated.

State is threaded explicitly: an operation takes the filesystem (and, for
the `Parser` methods, the parser state) and returns either a success value
together with the new state and the trace of events, or an error together
with the state at the point the exception escaped (Python exceptions leave
filesystem side effects in place).
-/

/-- Exceptions observable from `geolite2.parser`: the three library errors
from `exceptions.py`, plus the builtin Python errors the module can let
escape (`urllib.error.URLError`, `FileNotFoundError` from `shutil.copytree`,
`AttributeError` from `__getattr__`, `KeyError` from a dict subscript). -/
inductive Err where
  | unknownParserType (name : String)
  | databaseLoadError (msg : String)
  | updateError (msg : String)
  | urlError (msg : String)
  | fileNotFound (path : String)
  | attributeError (name : String)
  | keyError (name : String)
  deriving DecidableEq, Repr

/-- Observable actions of the module, recorded in traces: closing a cached
`maxminddb` reader, opening a database file, and the three directory
mutations performed by `_replace_data_dir`. -/
inductive Event where
  | closeReader (name : String)
  | openDatabase (path : String)
  | rmtree (path : String)
  | copytree (src dst : String)
  | rename (src dst : String)
  deriving DecidableEq, Repr

/-- True exactly on `closeReader` events. -/
def Event.isClose : Event → Bool
  | .closeReader _ => true
  | _ => false

/-- File bodies are opaque byte strings. -/
abbrev Bytes := String

/-- A directory is a flat list of (file name, file bytes) entries, the
granularity at which the update strategies move data around. -/
abbrev DirContent := List (String × Bytes)

/-- The filesystem: a finite map from directory paths to their contents,
as an association list. A path absent from the list does not exist. -/
abbrev FS := List (String × DirContent)

/-- Look up the contents of a path (`Path.exists` is `(fsGet fs p).isSome`). -/
def fsGet : FS → String → Option DirContent
  | [], _ => none
  | (q, d) :: rest, p => if p = q then some d else fsGet rest p

/-- Remove a directory tree (`shutil.rmtree`). -/
def fsRemove : FS → String → FS
  | [], _ => []
  | (q, d) :: rest, p => if p = q then fsRemove rest p else (q, d) :: fsRemove rest p

/-- Create or overwrite a directory at `p` with contents `d`. -/
def fsSet (fs : FS) (p : String) (d : DirContent) : FS :=
  (p, d) :: fsRemove fs p

/-- Write one file inside a directory, overwriting an existing entry of the
same name (`Path.write_bytes`). -/
def dirWrite : DirContent → String → Bytes → DirContent
  | [], n, b => [(n, b)]
  | (m, x) :: rest, n, b => if n = m then (n, b) :: rest else (m, x) :: dirWrite rest n b

theorem fsGet_fsRemove_same (fs : FS) (p : String) : fsGet (fsRemove fs p) p = none := by
  induction fs with
  | nil => rfl
  | cons hd tl ih =>
    obtain ⟨q, d⟩ := hd
    by_cases h : p = q
    · subst h
      simp [fsRemove, fsGet, ih]
    · simp [fsRemove, fsGet, h, ih]

theorem fsGet_fsRemove_other (fs : FS) (p q : String) (h : q ≠ p) :
    fsGet (fsRemove fs p) q = fsGet fs q := by
  induction fs with
  | nil => rfl
  | cons hd tl ih =>
    obtain ⟨r, d⟩ := hd
    by_cases hp : p = r
    · subst hp
      simp [fsRemove, fsGet, h, ih]
    · by_cases hq : q = r <;> simp [fsRemove, fsGet, hp, hq, ih]

theorem fsGet_fsSet_same (fs : FS) (p : String) (d : DirContent) :
    fsGet (fsSet fs p d) p = some d := by
  simp [fsSet, fsGet]

theorem fsGet_fsSet_other (fs : FS) (p q : String) (d : DirContent) (h : q ≠ p) :
    fsGet (fsSet fs p d) q = fsGet fs q := by
  simp [fsSet, fsGet, h, fsGet_fsRemove_other fs p q h]

/-- The sibling temp path used by `_replace_data_dir`:
`self._data_path.with_suffix(".tmp")`. The live data directory of the
repository (`ROOT_PATH / "data"`, or a caller-supplied directory path) has
no suffix, so `with_suffix` appends `.tmp`. -/
def tmpPath (p : String) : String := p ++ ".tmp"

theorem tmpPath_ne (p : String) : p ≠ tmpPath p := by
  intro h
  have hlen := congrArg String.length h
  have h4 : (".tmp" : String).length = 4 := by decide
  rw [tmpPath, String.length_append, h4] at hlen
  omega

/-- Embedding of `Parser._replace_data_dir(source)` acting on filesystem
`fs`, with the live directory at `dataPath`:
`tmp = data_path.with_suffix(".tmp")`; if `tmp` exists, `rmtree(tmp)`;
`copytree(source, tmp)` (raises `FileNotFoundError` if `source` does not
exist); if the live directory exists, `rmtree(data_path)`; finally
`tmp.replace(data_path)`. Returns the new filesystem and the trace of the
directory mutations in order. -/
def _replace_data_dir (dataPath source : String) (fs : FS) :
    Except (Err × FS) (FS × List Event) :=
  let tmp := tmpPath dataPath
  let fs1 := if (fsGet fs tmp).isSome then fsRemove fs tmp else fs
  let evs1 : List Event := if (fsGet fs tmp).isSome then [.rmtree tmp] else []
  match fsGet fs1 source with
  | none => .error (.fileNotFound source, fs1)
  | some content =>
    let fs2 := fsSet fs1 tmp content
    let evs2 := evs1 ++ [Event.copytree source tmp]
    let liveExists := (fsGet fs2 dataPath).isSome
    let fs3 := if liveExists then fsRemove fs2 dataPath else fs2
    let evs3 := evs2 ++ (if liveExists then [Event.rmtree dataPath] else [])
    let fs4 := fsSet (fsRemove fs3 tmp) dataPath content
    .ok (fs4, evs3 ++ [Event.rename tmp dataPath])

/-- Result of `shutil.which("git")` and of the two `subprocess.run` calls of
`_update_via_git`, plus the contents that a successful sparse clone leaves
in `<tmp>/geolite2/data` (the fixed remote repository does contain that
directory). An `.error` value of `cloneExit` / `sparseExit` is a non-zero
exit status (`subprocess.CalledProcessError` under `check=True`). -/
structure GitEnv where
  gitAvailable : Bool
  cloneExit : Except String Unit
  sparseExit : Except String Unit
  clonedData : DirContent

/-- One entry of the GitHub contents-API listing: the fields
`_update_via_api` reads from each JSON item. -/
structure ApiItem where
  type : String
  name : String
  download_url : String

/-- The network as seen by `_update_via_api`: the file-listing request
(`urlopen(GITHUB_API_BASE)` plus JSON decode) and the per-file download
(`urlopen(item["download_url"]).read()`). An `.error` is a raised
`urllib.error.URLError` (or decode failure) with its message. -/
structure Net where
  listing : Except String (List ApiItem)
  download : String → Except String Bytes

/-- Embedding of `Parser._update_via_git`: check `shutil.which("git")`,
shallow-sparse-clone into a scratch directory, `git sparse-checkout set
geolite2/data`, then swap `<scratch>/geolite2/data` into the live path.
`CalledProcessError` from either subprocess is caught and re-raised as
`UpdateError("Git update failed")`; the scratch tree is removed when the
`TemporaryDirectory` context exits, on success and on error alike. -/
def _update_via_git (g : GitEnv) (scratch dataPath : String) (fs : FS) :
    Except (Err × FS) (FS × List Event) :=
  if g.gitAvailable = false then
    .error (.updateError "git is not available on system", fs)
  else
    match g.cloneExit with
    | .error _ => .error (.updateError "Git update failed", fs)
    | .ok _ =>
      match g.sparseExit with
      | .error _ => .error (.updateError "Git update failed", fs)
      | .ok _ =>
        let src := scratch ++ "/geolite2/data"
        let fs1 := fsSet fs src g.clonedData
        match _replace_data_dir dataPath src fs1 with
        | .error (e, fs2) => .error (e, fsRemove fs2 src)
        | .ok (fs2, evs) => .ok (fsRemove fs2 src, evs)

/-- Embedding of the download loop of `_update_via_api`: for each listed
item whose `type` is `"file"`, fetch `download_url` and write the bytes to
`<scratch>/<name>`; a raised `URLError` escapes at once, leaving the files
already written in place. -/
def downloadFiles (net : Net) (scratch : String) :
    List ApiItem → FS → Except (Err × FS) FS
  | [], fs => .ok fs
  | item :: rest, fs =>
    if item.type ≠ "file" then downloadFiles net scratch rest fs
    else
      match net.download item.download_url with
      | .error m => .error (.urlError m, fs)
      | .ok bytes =>
        let dir := (fsGet fs scratch).getD []
        downloadFiles net scratch rest (fsSet fs scratch (dirWrite dir item.name bytes))

/-- Embedding of `Parser._update_via_api`: create a scratch temp directory,
fetch the file listing, download every listed file into the scratch
directory, and only then swap the scratch directory into the live path.
The `TemporaryDirectory` context removes the scratch directory on exit,
whether the body succeeded or raised. -/
def _update_via_api (net : Net) (scratch dataPath : String) (fs : FS) :
    Except (Err × FS) (FS × List Event) :=
  let fs0 := fsSet fs scratch []
  match net.listing with
  | .error m => .error (.urlError m, fsRemove fs0 scratch)
  | .ok files =>
    match downloadFiles net scratch files fs0 with
    | .error (e, fs1) => .error (e, fsRemove fs1 scratch)
    | .ok fs1 =>
      match _replace_data_dir dataPath scratch fs1 with
      | .error (e, fs2) => .error (e, fsRemove fs2 scratch)
      | .ok (fs2, evs) => .ok (fsRemove fs2 scratch, evs)

/-- Embedding of `Parser._update_via_local`: raise `UpdateError` when the
caller-supplied source path does not exist, otherwise swap it into the
live path. -/
def _update_via_local (dataPath source : String) (fs : FS) :
    Except (Err × FS) (FS × List Event) :=
  if (fsGet fs source).isSome = false then
    .error (.updateError ("Local path does not exist: " ++ source), fs)
  else
    _replace_data_dir dataPath source fs

/-- A decoded lookup record (`maxminddb` returns a dict or `None`; the
dict's structure is irrelevant to the parser module). -/
abbrev Val := List (String × String)

/-- An open `maxminddb.Reader`: once open, `get` is a pure read-only query
over the immutable backing blob. -/
structure Reader where
  get : String → Option Val

/-- External effects available to the lookup path: `maxminddb.open_database`
on a path, returning a reader or raising (missing / corrupt file). -/
structure Env where
  openDb : String → Except Err Reader

/-- One entry of `Parser._registry`: backing file name and handler. -/
structure RegEntry where
  db_file : String
  handler : Reader → String → Option Val

/-- Handler registered for `"asn"` (`parse_asn`). -/
def parse_asn (reader : Reader) (ip : String) : Option Val := reader.get ip

/-- Handler registered for `"city"` (`parse_city`). -/
def parse_city (reader : Reader) (ip : String) : Option Val := reader.get ip

/-- Handler registered for `"country"` (`parse_country`). -/
def parse_country (reader : Reader) (ip : String) : Option Val := reader.get ip

/-- The class-level registry `Parser._registry` after the three
`@Parser.register` decorators at module import have run, in order. -/
def _registry : List (String × RegEntry) :=
  [("asn", ⟨"GeoLite2-ASN.mmdb", parse_asn⟩),
   ("city", ⟨"GeoLite2-City.mmdb", parse_city⟩),
   ("country", ⟨"GeoLite2-Country.mmdb", parse_country⟩)]

/-- Association-list lookup, the (first-match) semantics of a Python dict
subscript on these keyed lists. -/
def alistGet {α : Type} : List (String × α) → String → Option α
  | [], _ => none
  | (q, a) :: rest, p => if p = q then some a else alistGet rest p

/-- Registry lookup: `name in Parser._registry` iff this is `some`. -/
def lookupReg (name : String) : Option RegEntry := alistGet _registry name

/-- Per-instance state of a `Parser`: its data directory path and the
reader cache `self._readers` (a dict, in insertion order). -/
structure ParserState where
  dataPath : String
  readers : List (String × Reader)

/-- Embedding of `Parser._get_reader(name)`: raise `UnknownParserType` when
the name is not registered (before any file access); otherwise return the
cached reader, or open `self._data_path / db_file`, cache it and return it.
The error case carries the (file-access) events that happened before the
exception: none for an unregistered name. -/
def _get_reader (env : Env) (st : ParserState) (name : String) :
    Except (Err × List Event) (Reader × ParserState × List Event) :=
  match lookupReg name with
  | none => .error (.unknownParserType name, [])
  | some entry =>
    match alistGet st.readers name with
    | some r => .ok (r, st, [])
    | none =>
      let path := st.dataPath ++ "/" ++ entry.db_file
      match env.openDb path with
      | .error e => .error (e, [.openDatabase path])
      | .ok r =>
        .ok (r, { st with readers := st.readers ++ [(name, r)] }, [.openDatabase path])

/-- Embedding of `Parser.parse(ip, name)`: get (possibly opening and
caching) the reader, then apply the registered handler. The dict subscript
`self._registry[name]` would raise `KeyError` were the name absent, but
`_get_reader` has already ruled that out. -/
def Parser.parse (env : Env) (st : ParserState) (ip name : String) :
    Except (Err × List Event) (Option Val × ParserState × List Event) :=
  match _get_reader env st name with
  | .error e => .error e
  | .ok (r, st1, evs) =>
    match lookupReg name with
    | none => .error (.keyError name, evs)
    | some entry => .ok (entry.handler r ip, st1, evs)

/-- Embedding of `Parser._close_readers`: close every cached reader (one
`closeReader` event per cache entry, in cache order) and clear the cache. -/
def _close_readers (st : ParserState) : ParserState × List Event :=
  ({ st with readers := [] }, st.readers.map fun p => Event.closeReader p.1)

/-- Embedding of `Parser.__getattr__(name)`: a registered name yields the
bound lambda `lambda ip: self.parse(ip, name)`; any other missing
attribute raises `AttributeError(name)`. -/
def Parser.getattr (env : Env) (st : ParserState) (name : String) :
    Except Err (String → Except (Err × List Event) (Option Val × ParserState × List Event)) :=
  if (lookupReg name).isSome then
    .ok (fun ip => Parser.parse env st ip name)
  else
    .error (.attributeError name)

/-- Everything `Parser.update` consults beyond the parser state and the
filesystem: the git world, the network, and the fresh scratch paths handed
out by `tempfile.TemporaryDirectory` for each strategy. -/
structure UpdateEnv where
  git : GitEnv
  net : Net
  gitScratch : String
  apiScratch : String

/-- Embedding of `Parser.update(method, path)`: first `_close_readers()`,
then dispatch on the method string; `"local"` with a falsy path (`None` or
`""`) and an unknown method string raise `UpdateError` before any strategy
runs. Errors escape after the cache was already cleared, so the error
carries the cleared state. -/
def Parser.update (env : UpdateEnv) (method : String) (path : Option String)
    (st : ParserState) (fs : FS) :
    Except (Err × ParserState × FS) (ParserState × FS × List Event) :=
  let closed := _close_readers st
  let st1 := closed.1
  let closeEvs := closed.2
  if method = "git" then
    match _update_via_git env.git env.gitScratch st1.dataPath fs with
    | .error (e, fs1) => .error (e, st1, fs1)
    | .ok (fs1, evs) => .ok (st1, fs1, closeEvs ++ evs)
  else if method = "api" then
    match _update_via_api env.net env.apiScratch st1.dataPath fs with
    | .error (e, fs1) => .error (e, st1, fs1)
    | .ok (fs1, evs) => .ok (st1, fs1, closeEvs ++ evs)
  else if method = "local" then
    match path with
    | none => .error (.updateError "Local update requires path", st1, fs)
    | some p =>
      if p = "" then .error (.updateError "Local update requires path", st1, fs)
      else
        match _update_via_local st1.dataPath p fs with
        | .error (e, fs1) => .error (e, st1, fs1)
        | .ok (fs1, evs) => .ok (st1, fs1, closeEvs ++ evs)
  else
    .error (.updateError ("Unknown update method: " ++ method), st1, fs)

/-- The directory-mutation trace that `_replace_data_dir` performs on a
filesystem `fs`: remove a pre-existing temp path first, copy the source to
the temp path, remove the live directory if present, rename temp onto live. -/
def swapTrace (dataPath source : String) (fs : FS) : List Event :=
  (if (fsGet fs (tmpPath dataPath)).isSome then [Event.rmtree (tmpPath dataPath)] else [])
  ++ [Event.copytree source (tmpPath dataPath)]
  ++ (if (fsGet fs dataPath).isSome then [Event.rmtree dataPath] else [])
  ++ [Event.rename (tmpPath dataPath) dataPath]

/-- Core specification of `_replace_data_dir` on an existing source: it
succeeds, performs exactly the swap trace, and leaves the source's
contents at the live path with the temp path gone. -/
theorem replace_data_dir_spec (dataPath source : String) (fs : FS) (c : DirContent)
    (hsrc : fsGet fs source = some c) (hne : source ≠ tmpPath dataPath) :
    ∃ fs', _replace_data_dir dataPath source fs = .ok (fs', swapTrace dataPath source fs)
      ∧ fsGet fs' dataPath = some c
      ∧ fsGet fs' (tmpPath dataPath) = none := by
  have hdt : dataPath ≠ tmpPath dataPath := tmpPath_ne dataPath
  have htd : tmpPath dataPath ≠ dataPath := fun h => hdt h.symm
  have hs1 : fsGet (if (fsGet fs (tmpPath dataPath)).isSome then
      fsRemove fs (tmpPath dataPath) else fs) source = some c := by
    split
    · rw [fsGet_fsRemove_other _ _ _ hne]; exact hsrc
    · exact hsrc
  have hlive : fsGet (fsSet (if (fsGet fs (tmpPath dataPath)).isSome then
      fsRemove fs (tmpPath dataPath) else fs) (tmpPath dataPath) c) dataPath
      = fsGet fs dataPath := by
    rw [fsGet_fsSet_other _ _ _ _ hdt]
    split
    · rw [fsGet_fsRemove_other _ _ _ hdt]
    · rfl
  have heq : ∃ X, _replace_data_dir dataPath source fs
      = .ok (fsSet (fsRemove X (tmpPath dataPath)) dataPath c,
             swapTrace dataPath source fs) := by
    refine ⟨?_, ?_⟩
    · exact (if (fsGet fs dataPath).isSome then
        fsRemove (fsSet (if (fsGet fs (tmpPath dataPath)).isSome then
          fsRemove fs (tmpPath dataPath) else fs) (tmpPath dataPath) c) dataPath
        else fsSet (if (fsGet fs (tmpPath dataPath)).isSome then
          fsRemove fs (tmpPath dataPath) else fs) (tmpPath dataPath) c)
    · simp only [_replace_data_dir, hs1, hlive, swapTrace]
  obtain ⟨X, hX⟩ := heq
  refine ⟨fsSet (fsRemove X (tmpPath dataPath)) dataPath c, hX, ?_, ?_⟩
  · exact fsGet_fsSet_same _ _ _
  · rw [fsGet_fsSet_other _ _ _ _ htd, fsGet_fsRemove_same]

theorem replace_data_dir_no_close (dataPath source : String) (fs : FS)
    (r : FS × List Event) (h : _replace_data_dir dataPath source fs = .ok r) :
    ∀ e ∈ r.2, e.isClose = false := by
  simp only [_replace_data_dir] at h
  split at h
  · exact absurd h (by simp)
  · injection h with h'
    subst h'
    intro e he
    rcases List.mem_append.mp he with h1 | h1
    · rcases List.mem_append.mp h1 with h2 | h2
      · rcases List.mem_append.mp h2 with h3 | h3
        · split at h3 <;> simp_all [Event.isClose]
        · simp_all [Event.isClose]
      · split at h2 <;> simp_all [Event.isClose]
    · simp_all [Event.isClose]

theorem downloadFiles_error_frame (net : Net) (scratch : String) :
    ∀ (files : List ApiItem) (fs : FS) (e : Err) (fs' : FS),
    downloadFiles net scratch files fs = .error (e, fs') →
    (∃ m, e = .urlError m) ∧ ∀ p, p ≠ scratch → fsGet fs' p = fsGet fs p := by
  intro files
  induction files with
  | nil => intro fs e fs' h; exact absurd h (by simp [downloadFiles])
  | cons item rest ih =>
    intro fs e fs' h
    simp only [downloadFiles] at h
    split at h
    · exact ih fs e fs' h
    · split at h
      · injection h with h'
        obtain ⟨h1, h2⟩ := Prod.mk.injEq .. ▸ h'
        subst h1; subst h2
        exact ⟨⟨_, rfl⟩, fun p _ => rfl⟩
      · obtain ⟨hm, hfr⟩ := ih _ e fs' h
        refine ⟨hm, fun p hp => ?_⟩
        rw [hfr p hp, fsGet_fsSet_other _ _ _ _ hp]

theorem downloadFiles_ok_frame (net : Net) (scratch : String) :
    ∀ (files : List ApiItem) (fs fs' : FS),
    downloadFiles net scratch files fs = .ok fs' →
    (∀ p, p ≠ scratch → fsGet fs' p = fsGet fs p) ∧
    ((fsGet fs scratch).isSome = true → (fsGet fs' scratch).isSome = true) := by
  intro files
  induction files with
  | nil =>
    intro fs fs' h
    simp only [downloadFiles] at h
    injection h with h'
    subst h'
    exact ⟨fun _ _ => rfl, fun h => h⟩
  | cons item rest ih =>
    intro fs fs' h
    simp only [downloadFiles] at h
    split at h
    · exact ih fs fs' h
    · split at h
      · exact absurd h (by simp)
      · obtain ⟨hfr, hsc⟩ := ih _ fs' h
        refine ⟨fun p hp => ?_, fun _ => ?_⟩
        · rw [hfr p hp, fsGet_fsSet_other _ _ _ _ hp]
        · exact hsc (by rw [fsGet_fsSet_same]; rfl)

theorem downloadFiles_total (net : Net) (scratch : String) :
    ∀ (files : List ApiItem) (fs : FS),
    (∀ item ∈ files, item.type = "file" → ∃ b, net.download item.download_url = .ok b) →
    ∃ fs', downloadFiles net scratch files fs = .ok fs' := by
  intro files
  induction files with
  | nil => intro fs _; exact ⟨fs, rfl⟩
  | cons item rest ih =>
    intro fs hall
    simp only [downloadFiles]
    split
    · exact ih fs fun i hi => hall i (List.mem_cons_of_mem _ hi)
    · rename_i hty
      obtain ⟨b, hb⟩ := hall item (List.mem_cons_self _ _) (by simpa using hty)
      rw [hb]
      exact ih _ fun i hi => hall i (List.mem_cons_of_mem _ hi)

theorem replace_data_dir_ok (dataPath source : String) (fs : FS) (c : DirContent)
    (hsrc : fsGet fs source = some c) (hne : source ≠ tmpPath dataPath) :
    ∃ r, _replace_data_dir dataPath source fs = .ok r := by
  obtain ⟨fs', h, -, -⟩ := replace_data_dir_spec dataPath source fs c hsrc hne
  exact ⟨_, h⟩

/-- C2: with a fresh scratch directory, the api strategy leaves the live
data directory (and its temp sibling) untouched whenever it raises — the
only errors it can raise are network errors from the listing request or a
per-file download, propagated to the caller — and it succeeds whenever the
listing and every per-file download succeed, because `_replace_data_dir`
only runs after the whole download loop has finished. -/
theorem c2_api_swap_only_on_full_success (net : Net) (scratch dataPath : String)
    (fs : FS) (hs1 : scratch ≠ dataPath) (hs2 : scratch ≠ tmpPath dataPath) :
    (∀ e fs', _update_via_api net scratch dataPath fs = .error (e, fs') →
       (∃ m, e = Err.urlError m) ∧ fsGet fs' dataPath = fsGet fs dataPath ∧
         fsGet fs' (tmpPath dataPath) = fsGet fs (tmpPath dataPath)) ∧
    (∀ files, net.listing = .ok files →
       (∀ item ∈ files, item.type = "file" → ∃ b, net.download item.download_url = .ok b) →
       ∃ r, _update_via_api net scratch dataPath fs = .ok r) := by
  have hd : dataPath ≠ scratch := fun h => hs1 h.symm
  have ht : tmpPath dataPath ≠ scratch := fun h => hs2 h.symm
  constructor
  · intro e fs' h
    cases hls : net.listing with
    | error m =>
      simp only [_update_via_api, hls, Except.error.injEq, Prod.mk.injEq] at h
      obtain ⟨h1, h2⟩ := h
      subst h1; subst h2
      refine ⟨⟨m, rfl⟩, ?_, ?_⟩
      · rw [fsGet_fsRemove_other _ _ _ hd, fsGet_fsSet_other _ _ _ _ hd]
      · rw [fsGet_fsRemove_other _ _ _ ht, fsGet_fsSet_other _ _ _ _ ht]
    | ok files =>
      simp only [_update_via_api, hls] at h
      cases hdl : downloadFiles net scratch files (fsSet fs scratch []) with
      | error p =>
        obtain ⟨em, fse⟩ := p
        simp only [hdl, Except.error.injEq, Prod.mk.injEq] at h
        obtain ⟨h1, h2⟩ := h
        subst h1; subst h2
        obtain ⟨hm, hfr⟩ := downloadFiles_error_frame net scratch files _ em fse hdl
        refine ⟨hm, ?_, ?_⟩
        · rw [fsGet_fsRemove_other _ _ _ hd, hfr dataPath hd,
            fsGet_fsSet_other _ _ _ _ hd]
        · rw [fsGet_fsRemove_other _ _ _ ht, hfr (tmpPath dataPath) ht,
            fsGet_fsSet_other _ _ _ _ ht]
      | ok fs1 =>
        simp only [hdl] at h
        obtain ⟨-, hsc⟩ := downloadFiles_ok_frame net scratch files _ fs1 hdl
        have hsome : (fsGet fs1 scratch).isSome = true :=
          hsc (by rw [fsGet_fsSet_same]; rfl)
        obtain ⟨c, hc⟩ := Option.isSome_iff_exists.mp hsome
        obtain ⟨⟨fs2, evs⟩, hrep⟩ := replace_data_dir_ok dataPath scratch fs1 c hc hs2
        simp only [hrep] at h
        exact absurd h (by simp)
  · intro files hls hall
    obtain ⟨fs1, hdl⟩ := downloadFiles_total net scratch files (fsSet fs scratch []) hall
    obtain ⟨-, hsc⟩ := downloadFiles_ok_frame net scratch files _ fs1 hdl
    obtain ⟨c, hc⟩ := Option.isSome_iff_exists.mp (hsc (by rw [fsGet_fsSet_same]; rfl))
    obtain ⟨⟨fs2, evs⟩, hrep⟩ := replace_data_dir_ok dataPath scratch fs1 c hc hs2
    refine ⟨(fsRemove fs2 scratch, evs), ?_⟩
    simp only [_update_via_api, hls, hdl, hrep]

/-- C1: for every source directory that exists (and is not itself the temp
path), `_replace_data_dir` proceeds in order — removal of a pre-existing
temp path first, then the copy of the candidate source into the temp path,
then removal of the live data directory if it exists, then the rename of
temp onto live — and afterwards the live directory holds exactly the
source's contents (a stale temp is never merged in) and the temp path is
gone. -/
theorem c1_replace_data_dir_swap (dataPath source : String) (fs : FS) (c : DirContent)
    (hsrc : fsGet fs source = some c) (hne : source ≠ tmpPath dataPath) :
    ∃ fs', _replace_data_dir dataPath source fs = .ok (fs', swapTrace dataPath source fs)
      ∧ fsGet fs' dataPath = some c
      ∧ fsGet fs' (tmpPath dataPath) = none :=
  replace_data_dir_spec dataPath source fs c hsrc hne

/-- A filesystem with a candidate source, a stale temp directory from a
prior failed run, and a live data directory. -/
def fsW : FS :=
  [("new", [("GeoLite2-City.mmdb", "new-bytes")]),
   ("data.tmp", [("stale", "junk")]),
   ("data", [("old", "old-bytes")])]

theorem c1_witness :
    ∃ fs', _replace_data_dir "data" "new" fsW = .ok (fs', swapTrace "data" "new" fsW)
      ∧ fsGet fs' "data" = some [("GeoLite2-City.mmdb", "new-bytes")]
      ∧ fsGet fs' (tmpPath "data") = none :=
  c1_replace_data_dir_swap "data" "new" fsW [("GeoLite2-City.mmdb", "new-bytes")]
    (by decide) (by decide)

/-- A network environment whose listing fails. -/
def netListFail : Net :=
  { listing := .error "HTTP 403", download := fun _ => .ok "bytes" }

theorem c2_witness :
    (∃ m, Err.urlError "HTTP 403" = Err.urlError m) ∧
      fsGet (fsRemove (fsSet fsW "/tmp/api" []) "/tmp/api") "data" = fsGet fsW "data" ∧
      fsGet (fsRemove (fsSet fsW "/tmp/api" []) "/tmp/api") (tmpPath "data")
        = fsGet fsW (tmpPath "data") :=
  (c2_api_swap_only_on_full_success netListFail "/tmp/api" "data" fsW
    (by decide) (by decide)).1 (Err.urlError "HTTP 403")
    (fsRemove (fsSet fsW "/tmp/api" []) "/tmp/api") rfl

/-- C4: the git strategy fails with `UpdateError` in exactly two
situations — no git executable (checked before any clone attempt), and a
clone or sparse-checkout subprocess exiting non-zero — and in both the
filesystem, in particular the live data directory, is left untouched;
when git is available and both subprocesses succeed, no error occurs. -/
theorem c4_git_update_errors (g : GitEnv) (scratch dataPath : String) (fs : FS)
    (hsc : scratch ++ "/geolite2/data" ≠ tmpPath dataPath) :
    (g.gitAvailable = false →
       _update_via_git g scratch dataPath fs
         = .error (.updateError "git is not available on system", fs)) ∧
    (∀ m, g.gitAvailable = true → g.cloneExit = .error m →
       _update_via_git g scratch dataPath fs
         = .error (.updateError "Git update failed", fs)) ∧
    (∀ m, g.gitAvailable = true → g.cloneExit = .ok () → g.sparseExit = .error m →
       _update_via_git g scratch dataPath fs
         = .error (.updateError "Git update failed", fs)) ∧
    (g.gitAvailable = true → g.cloneExit = .ok () → g.sparseExit = .ok () →
       ∃ r, _update_via_git g scratch dataPath fs = .ok r) := by
  refine ⟨?_, ?_, ?_, ?_⟩
  · intro h
    simp [_update_via_git, h]
  · intro m hav hcl
    simp [_update_via_git, hav, hcl]
  · intro m hav hcl hsp
    simp [_update_via_git, hav, hcl, hsp]
  · intro hav hcl hsp
    obtain ⟨⟨fs2, evs⟩, hrep⟩ := replace_data_dir_ok dataPath (scratch ++ "/geolite2/data")
      (fsSet fs (scratch ++ "/geolite2/data") g.clonedData) g.clonedData
      (fsGet_fsSet_same _ _ _) hsc
    refine ⟨(fsRemove fs2 (scratch ++ "/geolite2/data"), evs), ?_⟩
    simp only [_update_via_git, hav, hcl, hsp, hrep]
    simp

/-- Git environments: git missing, clone failing, and everything fine. -/
def gitNoGit : GitEnv :=
  { gitAvailable := false, cloneExit := .ok (), sparseExit := .ok (), clonedData := [] }

def gitCloneFail : GitEnv :=
  { gitAvailable := true, cloneExit := .error "exit status 128", sparseExit := .ok (),
    clonedData := [] }

def gitOk : GitEnv :=
  { gitAvailable := true, cloneExit := .ok (), sparseExit := .ok (),
    clonedData := [("GeoLite2-ASN.mmdb", "bytes")] }

theorem c4_witness :
    (_update_via_git gitNoGit "/tmp/git" "data" fsW
       = .error (.updateError "git is not available on system", fsW)) ∧
    (_update_via_git gitCloneFail "/tmp/git" "data" fsW
       = .error (.updateError "Git update failed", fsW)) ∧
    (∃ r, _update_via_git gitOk "/tmp/git" "data" fsW = .ok r) :=
  ⟨(c4_git_update_errors gitNoGit "/tmp/git" "data" fsW (by decide)).1 rfl,
   (c4_git_update_errors gitCloneFail "/tmp/git" "data" fsW (by decide)).2.1
     "exit status 128" rfl rfl,
   (c4_git_update_errors gitOk "/tmp/git" "data" fsW (by decide)).2.2.2 rfl rfl rfl⟩

/-- C5: the local strategy raises `UpdateError` when the caller-supplied
path does not exist, leaving the filesystem (in particular the live data
directory) unchanged; when the path exists it is handed to
`_replace_data_dir` as the swap source. -/
theorem c5_local_update (dataPath source : String) (fs : FS) :
    (fsGet fs source = none →
       _update_via_local dataPath source fs
         = .error (.updateError ("Local path does not exist: " ++ source), fs)) ∧
    (∀ c, fsGet fs source = some c →
       _update_via_local dataPath source fs = _replace_data_dir dataPath source fs) := by
  constructor
  · intro h
    simp [_update_via_local, h]
  · intro c h
    simp [_update_via_local, h]

theorem c5_witness :
    (_update_via_local "data" "missing" fsW
       = .error (.updateError ("Local path does not exist: " ++ "missing"), fsW)) ∧
    (_update_via_local "data" "new" fsW = _replace_data_dir "data" "new" fsW) :=
  ⟨(c5_local_update "data" "missing" fsW).1 (by decide),
   (c5_local_update "data" "new" fsW).2 [("GeoLite2-City.mmdb", "new-bytes")] (by decide)⟩

theorem git_no_close (g : GitEnv) (scratch dataPath : String) (fs : FS)
    (r : FS × List Event) (h : _update_via_git g scratch dataPath fs = .ok r) :
    ∀ e ∈ r.2, e.isClose = false := by
  simp only [_update_via_git] at h
  split at h
  · exact absurd h (by simp)
  · split at h
    · exact absurd h (by simp)
    · split at h
      · exact absurd h (by simp)
      · split at h
        · exact absurd h (by simp)
        · rename_i fs2 evs hrep
          injection h with h'
          subst h'
          exact fun e he => replace_data_dir_no_close _ _ _ (fs2, evs) hrep e he

theorem api_no_close (net : Net) (scratch dataPath : String) (fs : FS)
    (r : FS × List Event) (h : _update_via_api net scratch dataPath fs = .ok r) :
    ∀ e ∈ r.2, e.isClose = false := by
  simp only [_update_via_api] at h
  split at h
  · exact absurd h (by simp)
  · split at h
    · exact absurd h (by simp)
    · split at h
      · exact absurd h (by simp)
      · rename_i fs2 evs hrep
        injection h with h'
        subst h'
        exact fun e he => replace_data_dir_no_close _ _ _ (fs2, evs) hrep e he

theorem local_no_close (dataPath source : String) (fs : FS)
    (r : FS × List Event) (h : _update_via_local dataPath source fs = .ok r) :
    ∀ e ∈ r.2, e.isClose = false := by
  simp only [_update_via_local] at h
  split at h
  · exact absurd h (by simp)
  · exact fun e he => replace_data_dir_no_close _ _ _ r h e he

/-- C6: every call to `update`, whatever the method and path, first closes
every open reader and empties the reader cache before any strategy runs:
on success the trace starts with exactly the `closeReader` events for the
previously cached readers, everything after them (in particular every
directory-swap event) is not a close, and the returned state has an empty
cache; on error the state at the raise already has an empty cache. -/
theorem c6_close_before_update (env : UpdateEnv) (method : String)
    (path : Option String) (st : ParserState) (fs : FS) :
    (∀ st' fs' evs, Parser.update env method path st fs = .ok (st', fs', evs) →
       ∃ rest, evs = (st.readers.map fun p => Event.closeReader p.1) ++ rest
         ∧ (∀ e ∈ rest, e.isClose = false)
         ∧ st'.readers = []) ∧
    (∀ e st' fs', Parser.update env method path st fs = .error (e, st', fs') →
       st'.readers = []) := by
  constructor
  · intro st' fs' evs h
    simp only [Parser.update, _close_readers] at h
    split at h
    · split at h
      · exact absurd h (by simp)
      · rename_i fs1 evs1 hg
        injection h with h'
        injection h' with h1 h''
        injection h'' with h2 h3
        subst h1; subst h2; subst h3
        exact ⟨evs1, rfl, git_no_close _ _ _ _ (fs1, evs1) hg, rfl⟩
    · split at h
      · split at h
        · exact absurd h (by simp)
        · rename_i fs1 evs1 ha
          injection h with h'
          injection h' with h1 h''
          injection h'' with h2 h3
          subst h1; subst h2; subst h3
          exact ⟨evs1, rfl, api_no_close _ _ _ _ (fs1, evs1) ha, rfl⟩
      · split at h
        · split at h
          · exact absurd h (by simp)
          · split at h
            · exact absurd h (by simp)
            · split at h
              · exact absurd h (by simp)
              · rename_i fs1 evs1 hl
                injection h with h'
                injection h' with h1 h''
                injection h'' with h2 h3
                subst h1; subst h2; subst h3
                exact ⟨evs1, rfl, local_no_close _ _ _ (fs1, evs1) hl, rfl⟩
        · exact absurd h (by simp)
  · intro e st' fs' h
    simp only [Parser.update, _close_readers] at h
    split at h
    · split at h
      · injection h with h'
        injection h' with h1 h''
        injection h'' with h2 h3
        subst h2
        rfl
      · exact absurd h (by simp)
    · split at h
      · split at h
        · injection h with h'
          injection h' with h1 h''
          injection h'' with h2 h3
          subst h2
          rfl
        · exact absurd h (by simp)
      · split at h
        · split at h
          · injection h with h'
            injection h' with h1 h''
            injection h'' with h2 h3
            subst h2
            rfl
          · split at h
            · injection h with h'
              injection h' with h1 h''
              injection h'' with h2 h3
              subst h2
              rfl
            · split at h
              · injection h with h'
                injection h' with h1 h''
                injection h'' with h2 h3
                subst h2
                rfl
              · exact absurd h (by simp)
        · injection h with h'
          injection h' with h1 h''
          injection h'' with h2 h3
          subst h2
          rfl

/-- C9: `update(method="local")` with no path (`None` or the empty string)
raises `UpdateError` before any strategy runs, and `update` with a method
other than `"git"`, `"api"`, `"local"` raises `UpdateError` as well; in
both cases the filesystem (so the live data directory) is untouched and
the reader cache has already been closed and cleared. -/
theorem c9_update_precondition_errors (env : UpdateEnv) (st : ParserState) (fs : FS) :
    (∀ path, path = none ∨ path = some "" →
       Parser.update env "local" path st fs
         = .error (.updateError "Local update requires path",
             { st with readers := [] }, fs)) ∧
    (∀ method path, method ≠ "git" → method ≠ "api" → method ≠ "local" →
       Parser.update env method path st fs
         = .error (.updateError ("Unknown update method: " ++ method),
             { st with readers := [] }, fs)) := by
  constructor
  · rintro path (rfl | rfl) <;> simp [Parser.update, _close_readers]
  · intro method path h1 h2 h3
    simp [Parser.update, _close_readers, h1, h2, h3]

theorem alistGet_append_of_none {α : Type} (l1 l2 : List (String × α)) (n : String)
    (h : alistGet l1 n = none) : alistGet (l1 ++ l2) n = alistGet l2 n := by
  induction l1 with
  | nil => rfl
  | cons hd tl ih =>
    obtain ⟨q, a⟩ := hd
    by_cases hq : n = q
    · simp [alistGet, hq] at h
    · simp only [List.cons_append, alistGet, if_neg hq] at h ⊢
      exact ih h

/-- Full success characterization of `Parser.parse`: the name is
registered, the resulting state caches a reader for it, the value is the
handler applied to that reader, and the trace distinguishes the first-open
case (one `openDatabase` event, reader appended to the cache) from the
cached case (no events, state unchanged). -/
theorem parse_ok_spec (env : Env) (st : ParserState) (ip name : String)
    (v : Option Val) (st1 : ParserState) (evs : List Event)
    (h : Parser.parse env st ip name = .ok (v, st1, evs)) :
    ∃ entry r, lookupReg name = some entry
      ∧ alistGet st1.readers name = some r
      ∧ v = entry.handler r ip
      ∧ st1.dataPath = st.dataPath
      ∧ (alistGet st.readers name = none →
           evs = [.openDatabase (st.dataPath ++ "/" ++ entry.db_file)]
           ∧ st1.readers = st.readers ++ [(name, r)])
      ∧ (∀ r0, alistGet st.readers name = some r0 → r = r0 ∧ st1 = st ∧ evs = []) := by
  simp only [Parser.parse, _get_reader] at h
  cases hreg : lookupReg name with
  | none => simp [hreg] at h
  | some entry =>
    simp only [hreg] at h
    cases hcache : alistGet st.readers name with
    | some r0 =>
      simp only [hcache] at h
      injection h with h'
      injection h' with h1 h''
      injection h'' with h2 h3
      subst h1; subst h2; subst h3
      refine ⟨entry, r0, rfl, hcache, rfl, rfl, ?_, ?_⟩
      · intro hn
        exact absurd hn (by simp)
      · intro r1 hr1
        exact ⟨Option.some.inj hr1, rfl, rfl⟩
    | none =>
      simp only [hcache] at h
      cases hopen : env.openDb (st.dataPath ++ "/" ++ entry.db_file) with
      | error e => simp [hopen] at h
      | ok r =>
        simp only [hopen] at h
        injection h with h'
        injection h' with h1 h''
        injection h'' with h2 h3
        subst h1; subst h3; subst h2
        refine ⟨entry, r, rfl, ?_, rfl, rfl, ?_, ?_⟩
        · rw [alistGet_append_of_none _ _ _ hcache]
          simp [alistGet]
        · intro _
          exact ⟨rfl, rfl⟩
        · intro r0 hr0
          exact absurd hr0 (by simp)

/-- A lookup against a state that already caches a reader for a registered
name returns the handler's value with no events and an unchanged state. -/
theorem parse_cached (env : Env) (st : ParserState) (ip name : String)
    (entry : RegEntry) (r : Reader) (hreg : lookupReg name = some entry)
    (hc : alistGet st.readers name = some r) :
    Parser.parse env st ip name = .ok (entry.handler r ip, st, []) := by
  simp [Parser.parse, _get_reader, hreg, hc]

/-- C3: for every IP string and every name that is not a key of the
handler registry, `parse(ip, name)` raises `UnknownParserType` with an
empty event trace — no database file is opened or touched first. -/
theorem c3_unknown_type (env : Env) (st : ParserState) (ip name : String)
    (h : lookupReg name = none) :
    Parser.parse env st ip name = .error (.unknownParserType name, []) := by
  simp [Parser.parse, _get_reader, h]

/-- C7: when a parse for a registered name succeeds, the backing file was
opened only if the name had no cached reader yet (exactly one
`openDatabase` event on the backing path); with a cached reader, no event
occurs and the state is unchanged; and every subsequent parse for the same
name on the resulting state succeeds with an empty trace and the same
state — no further file or network access on the lookup path. -/
theorem c7_lazy_open_and_cache (env : Env) (st : ParserState) (ip name : String)
    (v : Option Val) (st1 : ParserState) (evs : List Event)
    (h : Parser.parse env st ip name = .ok (v, st1, evs)) :
    (alistGet st.readers name = none →
       ∃ entry, lookupReg name = some entry
         ∧ evs = [Event.openDatabase (st.dataPath ++ "/" ++ entry.db_file)]) ∧
    (∀ r0, alistGet st.readers name = some r0 → evs = [] ∧ st1 = st) ∧
    (∀ ip2, ∃ v2, Parser.parse env st1 ip2 name = .ok (v2, st1, [])) := by
  obtain ⟨entry, r, hreg, hc1, -, -, hfresh, hcached⟩ :=
    parse_ok_spec env st ip name v st1 evs h
  refine ⟨?_, ?_, ?_⟩
  · intro hn
    exact ⟨entry, hreg, (hfresh hn).1⟩
  · intro r0 h0
    obtain ⟨-, hs, he⟩ := hcached r0 h0
    exact ⟨he, hs⟩
  · intro ip2
    exact ⟨entry.handler r ip2, parse_cached env st1 ip2 name entry r hreg hc1⟩

/-- C8: a lookup is idempotent — when `parse(ip, name)` succeeds, calling
it again on the resulting state returns the same value, with the state
unchanged and no further events (the lookup reads the same immutable open
reader). -/
theorem c8_parse_idempotent (env : Env) (st : ParserState) (ip name : String)
    (v : Option Val) (st1 : ParserState) (evs : List Event)
    (h : Parser.parse env st ip name = .ok (v, st1, evs)) :
    Parser.parse env st1 ip name = .ok (v, st1, []) := by
  obtain ⟨entry, r, hreg, hc1, hv, -, -, -⟩ := parse_ok_spec env st ip name v st1 evs h
  rw [hv]
  exact parse_cached env st1 ip name entry r hreg hc1

/-- C10: attribute-style dispatch agrees with explicit dispatch — for a
registered name, `__getattr__` yields a function mapping `ip` to exactly
`parse(ip, name)`; for a name outside the registry, it raises
`AttributeError` (not `UnknownParserType`). -/
theorem c10_getattr_dispatch (env : Env) (st : ParserState) (name : String) :
    ((lookupReg name).isSome = true →
       ∃ f, Parser.getattr env st name = .ok f
         ∧ ∀ ip, f ip = Parser.parse env st ip name) ∧
    (lookupReg name = none →
       Parser.getattr env st name = .error (.attributeError name)) := by
  constructor
  · intro h
    refine ⟨fun ip => Parser.parse env st ip name, ?_, fun ip => rfl⟩
    simp [Parser.getattr, h]
  · intro h
    simp [Parser.getattr, h]

/-- A concrete open reader, environment and parser states for witnesses. -/
def rdW : Reader := { get := fun _ => some [("autonomous_system_number", "15169")] }

def envW : Env := { openDb := fun _ => .ok rdW }

def stW : ParserState := { dataPath := "data", readers := [] }

def stW1 : ParserState := { dataPath := "data", readers := [("asn", rdW)] }

def updEnvW : UpdateEnv :=
  { git := gitOk, net := netListFail, gitScratch := "/tmp/git", apiScratch := "/tmp/api" }

theorem c3_witness :
    Parser.parse envW stW "8.8.8.8" "bogus" = .error (.unknownParserType "bogus", []) :=
  c3_unknown_type envW stW "8.8.8.8" "bogus" rfl

theorem c7_witness :
    ∃ v2, Parser.parse envW stW1 "1.1.1.1" "asn" = .ok (v2, stW1, []) :=
  (c7_lazy_open_and_cache envW stW "8.8.8.8" "asn"
     (some [("autonomous_system_number", "15169")]) stW1
     [Event.openDatabase "data/GeoLite2-ASN.mmdb"] rfl).2.2 "1.1.1.1"

theorem c8_witness :
    Parser.parse envW stW1 "8.8.8.8" "asn"
      = .ok (some [("autonomous_system_number", "15169")], stW1, []) :=
  c8_parse_idempotent envW stW "8.8.8.8" "asn"
    (some [("autonomous_system_number", "15169")]) stW1
    [Event.openDatabase "data/GeoLite2-ASN.mmdb"] rfl

theorem c10_witness :
    (∃ f, Parser.getattr envW stW "city" = .ok f
       ∧ ∀ ip, f ip = Parser.parse envW stW ip "city") ∧
    Parser.getattr envW stW "missing" = .error (.attributeError "missing") :=
  ⟨(c10_getattr_dispatch envW stW "city").1 rfl,
   (c10_getattr_dispatch envW stW "missing").2 rfl⟩

theorem c9_witness :
    (Parser.update updEnvW "local" none stW1 fsW
       = .error (.updateError "Local update requires path",
           { stW1 with readers := [] }, fsW)) ∧
    (Parser.update updEnvW "bogus" none stW1 fsW
       = .error (.updateError ("Unknown update method: " ++ "bogus"),
           { stW1 with readers := [] }, fsW)) :=
  ⟨(c9_update_precondition_errors updEnvW stW1 fsW).1 none (Or.inl rfl),
   (c9_update_precondition_errors updEnvW stW1 fsW).2 "bogus" none
     (by decide) (by decide) (by decide)⟩

theorem c6_witness :
    ∃ rest,
      ([Event.closeReader "asn", Event.rmtree "data.tmp",
        Event.copytree "new" "data.tmp", Event.rmtree "data",
        Event.rename "data.tmp" "data"] : List Event)
        = (stW1.readers.map fun p => Event.closeReader p.1) ++ rest
      ∧ (∀ e ∈ rest, e.isClose = false)
      ∧ ({ dataPath := "data", readers := [] } : ParserState).readers = [] :=
  (c6_close_before_update updEnvW "local" (some "new") stW1 fsW).1
    { dataPath := "data", readers := [] }
    [("data", [("GeoLite2-City.mmdb", "new-bytes")]),
     ("new", [("GeoLite2-City.mmdb", "new-bytes")])]
    [Event.closeReader "asn", Event.rmtree "data.tmp", Event.copytree "new" "data.tmp",
     Event.rmtree "data", Event.rename "data.tmp" "data"] rfl
